import Mathlib

/-!
Verification of the PSP media metadata writer (`psp_metadata_writer.py`).

The development shallowly embeds the decision logic of the tool:

* `extract_episode_number` — the ordered regex-rule ladder that derives a
  normalized episode tag from a filename stem;
* `find_cover_image` — the fixed ordered 15-candidate cover-image scan;
* `add_metadata_to_video` — the write-to-temp-then-rename metadata tagger,
  modelled over an abstract transcoder outcome;
* `process_movies` / `process_tv_show` — the per-video batch loops,
  modelled as `movieRun` / `tvRun` over a directory listing;
* `cleanup_for_psp` — deletion of the fixed cover/thumbnail filenames.

Filenames are Lean `String`s; a directory is the list of names of the files
it contains.  The external transcoder is modelled by an outcome oracle: the
source code only depends on its exit status and the produced file.
-/

/-! ### Character and digit-string helpers (model of the regex primitives) -/

/-- ASCII lower-casing, modelling `re.IGNORECASE` letter comparison. -/
def lowerChar (c : Char) : Char :=
  if 'A' ≤ c ∧ c ≤ 'Z' then Char.ofNat (c.toNat + 32) else c

/-- Model of the regex class `\s` (ASCII whitespace). -/
def isWs (c : Char) : Bool :=
  c == ' ' || c == '\t' || c == '\n' || c == '\r' || c == Char.ofNat 11 || c == Char.ofNat 12

/-- Greedy `\d+` prefix: the maximal run of digits at the head of `l`. -/
def takeDigits (l : List Char) : List Char := l.takeWhile Char.isDigit

/-- What remains after the maximal digit run at the head of `l`. -/
def dropDigits (l : List Char) : List Char := l.dropWhile Char.isDigit

/-- Model of Python `int` on a digit string (so `int "0012" = 12`). -/
def digitsToNat (l : List Char) : Nat :=
  l.foldl (fun a c => 10 * a + (c.toNat - 48)) 0

/-- Decimal digit characters of `n`, via an explicit fuel so the kernel
can evaluate it. -/
def natDigitsAux : Nat → Nat → List Char
  | 0, _ => []
  | fuel + 1, n =>
      if n < 10 then [Char.ofNat (48 + n)]
      else natDigitsAux fuel (n / 10) ++ [Char.ofNat (48 + n % 10)]

/-- Decimal digit characters of `n`. -/
def natDigits (n : Nat) : List Char := natDigitsAux (n + 1) n

/-- Model of the Python format specifier `{n:02d}`: decimal, zero-padded to
a minimum width of two. -/
def pad2 (n : Nat) : String :=
  if n < 10 then String.mk ('0' :: natDigits n) else String.mk (natDigits n)

/-- Match a literal pattern (given in lowercase) case-insensitively at the
head of the input; on success return the rest of the input. -/
def stripCI : List Char → List Char → Option (List Char)
  | [], l => some l
  | _ :: _, [] => none
  | p :: ps, c :: cs => if lowerChar c = p then stripCI ps cs else none

/-! ### The seven ordered rules of `extract_episode_number`

Each `match…At` function decides whether the corresponding regex matches at
the current position (i.e. anchored at the head of the given suffix of the
filename), and `scanFor` tries each position left to right — the model of
`re.search`'s leftmost-match semantics.  Greedy `\d+` needs no backtracking
in these patterns because the character that follows each digit group is
never itself a digit. -/

/-- Rule 1 anchored at a position: `S(\d+)E(\d+)`, case-insensitive. -/
def matchSEAt : List Char → Option (Nat × Nat)
  | [] => none
  | c :: rest =>
      if lowerChar c = 's' then
        let ds := takeDigits rest
        if ds.isEmpty then none
        else
          match dropDigits rest with
          | [] => none
          | e :: rest2 =>
              if lowerChar e = 'e' then
                let es := takeDigits rest2
                if es.isEmpty then none else some (digitsToNat ds, digitsToNat es)
              else none
      else none

/-- Rule 2 anchored at a position: `(\d+)x(\d+)`, case-insensitive. -/
def matchXAt (l : List Char) : Option (Nat × Nat) :=
  let ds := takeDigits l
  if ds.isEmpty then none
  else
    match dropDigits l with
    | [] => none
    | x :: rest2 =>
        if lowerChar x = 'x' then
          let es := takeDigits rest2
          if es.isEmpty then none else some (digitsToNat ds, digitsToNat es)
        else none

/-- Rule 3 anchored at a position: `EP(\d+)`, case-insensitive. -/
def matchEPAt (l : List Char) : Option Nat :=
  match stripCI ['e', 'p'] l with
  | some rest =>
      let ds := takeDigits rest
      if ds.isEmpty then none else some (digitsToNat ds)
  | none => none

/-- Rule 5 anchored at a position: `Episode\s*(\d+)`, case-insensitive. -/
def matchEpisodeAt (l : List Char) : Option Nat :=
  match stripCI ['e', 'p', 'i', 's', 'o', 'd', 'e'] l with
  | some rest =>
      let ds := takeDigits (rest.dropWhile isWs)
      if ds.isEmpty then none else some (digitsToNat ds)
  | none => none

/-- Rule 6 anchored at a position: `Ep\s*(\d+)`, case-insensitive.  The
first component records how many whitespace characters the `\s*` consumed. -/
def matchEpShortAt (l : List Char) : Option (Nat × Nat) :=
  match stripCI ['e', 'p'] l with
  | some rest =>
      let ws := rest.takeWhile isWs
      let ds := takeDigits (rest.dropWhile isWs)
      if ds.isEmpty then none else some (ws.length, digitsToNat ds)
  | none => none

/-- Rule 7 anchored at a position: `(\d+)`. -/
def matchNumAt (l : List Char) : Option Nat :=
  let ds := takeDigits l
  if ds.isEmpty then none else some (digitsToNat ds)

/-- `re.search`: try the anchored matcher at every position, left to right,
returning the first (leftmost) match. -/
def scanFor {α : Type} (m : List Char → Option α) : List Char → Option α
  | [] => none
  | c :: rest =>
      match m (c :: rest) with
      | some a => some a
      | none => scanFor m rest

/-- `re.search(r'S(\d+)E(\d+)', filename, re.IGNORECASE)`. -/
def searchSE (l : List Char) : Option (Nat × Nat) := scanFor matchSEAt l

/-- `re.search(r'(\d+)x(\d+)', filename, re.IGNORECASE)`. -/
def searchX (l : List Char) : Option (Nat × Nat) := scanFor matchXAt l

/-- `re.search(r'EP(\d+)', filename, re.IGNORECASE)`. -/
def searchEP (l : List Char) : Option Nat := scanFor matchEPAt l

/-- `re.search(r'^(\d+)-', filename)`: anchored at the start. -/
def dashMatch (l : List Char) : Option Nat :=
  let ds := takeDigits l
  if ds.isEmpty then none
  else
    match dropDigits l with
    | '-' :: _ => some (digitsToNat ds)
    | _ => none

/-- `re.search(r'Episode\s*(\d+)', filename, re.IGNORECASE)`. -/
def searchEpisode (l : List Char) : Option Nat := scanFor matchEpisodeAt l

/-- `re.search(r'Ep\s*(\d+)', filename, re.IGNORECASE)`. -/
def searchEpShort (l : List Char) : Option (Nat × Nat) := scanFor matchEpShortAt l

/-- `re.search(r'(\d+)', filename)`. -/
def searchNumber (l : List Char) : Option Nat := scanFor matchNumAt l

/-- `PSPMetadataWriter.extract_episode_number`: the ordered rule ladder,
first match wins. -/
def extract_episode_number (filename : String) : Option String :=
  match searchSE filename.toList with
  | some (a, b) => some ("S" ++ pad2 a ++ "E" ++ pad2 b)
  | none =>
    match searchX filename.toList with
    | some (a, b) => some ("S" ++ pad2 a ++ "E" ++ pad2 b)
    | none =>
      match searchEP filename.toList with
      | some n => some ("S01E" ++ pad2 n)
      | none =>
        match dashMatch filename.toList with
        | some n => some ("S01E" ++ pad2 n)
        | none =>
          match searchEpisode filename.toList with
          | some n => some ("E" ++ pad2 n)
          | none =>
            match searchEpShort filename.toList with
            | some (_, n) => some ("E" ++ pad2 n)
            | none =>
              match searchNumber filename.toList with
              | some n => some ("E" ++ pad2 n)
              | none => none

example : extract_episode_number ("S01E02 - Episode 3") = some ("S01E02") := by decide

example : extract_episode_number ("Show.s1e2") = some ("S01E02") := by decide

example : extract_episode_number ("05-Pilot") = some ("S01E05") := by decide

example : extract_episode_number ("randomfile") = none := by decide

example : extract_episode_number ("Show Ep3") = some ("S01E03") := by decide

example : extract_episode_number ("Show Ep 3") = some ("E03") := by decide

example : extract_episode_number ("Show 1080 part 2") = some ("E1080") := by decide

example : extract_episode_number ("Show 3x07") = some ("S03E07") := by decide

/-! ### Cover-image resolution and cleanup -/

/-- The fixed ordered candidate list from `find_cover_image`
(`cover_patterns` in the source). -/
def cover_patterns : List String :=
  ["cover.jpg", "cover.jpeg", "cover.png", "cover.bmp", "cover.gif",
   "Cover.jpg", "Cover.jpeg", "Cover.png", "Cover.bmp", "Cover.gif",
   "COVER.jpg", "COVER.jpeg", "COVER.png", "COVER.bmp", "COVER.gif"]

/-- `PSPMetadataWriter.find_cover_image`: scan the candidates in order and
return the first that exists in the directory.  A directory is modelled as
the list of names of the files it contains. -/
def find_cover_image (dir : List String) : Option String :=
  cover_patterns.find? (fun p => dir.contains p)

/-- The fixed removal list from `cleanup_for_psp` (`files_to_remove` in the
source): the generated thumbnail plus the 15 cover candidates. -/
def files_to_remove : List String :=
  ["thumbnail.jpg",
   "cover.jpg", "cover.jpeg", "cover.png", "cover.bmp", "cover.gif",
   "Cover.jpg", "Cover.jpeg", "Cover.png", "Cover.bmp", "Cover.gif",
   "COVER.jpg", "COVER.jpeg", "COVER.png", "COVER.bmp", "COVER.gif"]

/-- `PSPMetadataWriter.cleanup_for_psp`: unlink each name of
`files_to_remove` that exists in the directory; an unlink error
(`unlinkFails`) is reported and leaves that file in place.  A file survives
exactly when it is not a successfully removed member of the list. -/
def cleanup_for_psp (dir : List String) (unlinkFails : String → Bool) : List String :=
  dir.filter (fun f => !(files_to_remove.contains f && !unlinkFails f))

/-! ### The metadata tagger (`add_metadata_to_video`) -/

/-- Outcome of one transcoder invocation for the tagger: on success the
temporary file holds the fully tagged content; on failure a partially
written temporary file may or may not exist. -/
inductive TranscodeOutcome where
  | success (tagged : String) : TranscodeOutcome
  | failure (leftover : Option String) : TranscodeOutcome

/-- The state of one video path: the content at the original path and the
content at the temporary path (if the temporary file exists). -/
structure FileState where
  original : String
  temp : Option String
deriving Repr, DecidableEq

/-- `PSPMetadataWriter.add_metadata_to_video`: run the transcoder into the
temporary path; on success `shutil.move` the temporary file over the
original and return `true`; on `CalledProcessError` unlink the temporary
file if it exists and return `false`. -/
def add_metadata_to_video (f : FileState) (o : TranscodeOutcome) : FileState × Bool :=
  match o with
  | TranscodeOutcome.success tagged =>
      ({ original := tagged, temp := none }, true)
  | TranscodeOutcome.failure _ =>
      ({ original := f.original, temp := none }, false)

/-! ### The batch pipelines (`process_movies` / `process_tv_show`) -/

/-- Index of the last `'.'` in a character list, if any (Python
`str.rfind('.')` restricted to found results). -/
def rfindDot : List Char → Option Nat
  | [] => none
  | c :: rest =>
      match rfindDot rest with
      | some i => some (i + 1)
      | none => if c = '.' then some 0 else none

/-- `pathlib.PurePath.stem`: the filename without its final suffix; the
suffix exists only when the last dot is neither the first nor the last
character. -/
def stem (s : String) : String :=
  match rfindDot s.toList with
  | some i =>
      if 0 < i ∧ i < s.toList.length - 1 then String.mk (s.toList.take i) else s
  | none => s

example : stem ("Show.S01E02.mp4") = "Show.S01E02" := by decide

example : stem ("movie.mp4") = "movie" := by decide

example : stem ("noext") = "noext" := by decide

/-- Does the name end in the given extension?  Used to model the
`directory.glob("*.mp4")` filter. -/
def strEndsWith (s ext : String) : Bool :=
  ext.toList.reverse.isPrefixOf s.toList.reverse

/-- The `*.mp4` directory listing (`directory.glob("*.mp4")`). -/
def mp4Files (dir : List String) : List String :=
  dir.filter (fun n => strEndsWith n (".mp4"))

/-- `video_path.with_suffix('.THM')`: the sidecar thumbnail name. -/
def sidecarName (n : String) : String := stem n ++ ".THM"

/-- Creating a file: filesystems keep one entry per name. -/
def addFile (dir : List String) (n : String) : List String :=
  if dir.contains n then dir else dir ++ [n]

/-- Whether a run has a usable thumbnail: a cover candidate exists and the
transcoder scaled it successfully (`convertOk`). -/
def thumbAvail (dir : List String) (convertOk : Bool) : Bool :=
  (find_cover_image dir).isSome && convertOk

/-- The directory after the thumbnail-generation stage: on success the
transcoder wrote `thumbnail.jpg` into the directory. -/
def dirWithThumb (dir : List String) (convertOk : Bool) : List String :=
  if thumbAvail dir convertOk then addFile dir ("thumbnail.jpg") else dir

/-- The videos a run iterates over: the `*.mp4` glob taken after the
thumbnail stage. -/
def runVideos (dir : List String) (convertOk : Bool) : List String :=
  mp4Files (dirWithThumb dir convertOk)

/-- What one loop iteration of `process_movies` / `process_tv_show` records
for one video. -/
structure VideoResult where
  name : String
  metadata : List (String × String)
  tagged : Bool
  thumbCreated : Bool
deriving Repr, DecidableEq

/-- Everything a batch run produced: one result per video, in order, and
whether the final cleanup stage was reached. -/
structure RunTrace where
  results : List VideoResult
  cleanupRan : Bool
deriving Repr, DecidableEq

/-- One iteration of the `process_movies` loop: build the metadata mapping,
tag the video (`tagOk` abstracts the transcoder exit status for this video),
and on success copy the thumbnail sidecar if one is available (`thumbCopyOk`
abstracts `shutil.copy2` succeeding). -/
def processMovieVideo (ta : Bool) (tagOk thumbCopyOk : String → Bool)
    (name : String) : VideoResult :=
  let metadata := [("title", stem name), ("album", "Movies")]
  let ok := tagOk name
  { name := name, metadata := metadata, tagged := ok,
    thumbCreated := ok && ta && thumbCopyOk name }

/-- One iteration of the `process_tv_show` loop: like the movie loop but the
metadata carries the show name and, when `extract_episode_number` finds a
tag in the filename stem, an `episode_id` entry. -/
def processTvVideo (showName : String) (ta : Bool) (tagOk thumbCopyOk : String → Bool)
    (name : String) : VideoResult :=
  let base := [("title", stem name), ("album", showName), ("show", showName)]
  let metadata :=
    match extract_episode_number (stem name) with
    | some tag => base ++ [("episode_id", tag)]
    | none => base
  let ok := tagOk name
  { name := name, metadata := metadata, tagged := ok,
    thumbCreated := ok && ta && thumbCopyOk name }

/-- The results of the `process_movies` loop: one `VideoResult` per video
of the `*.mp4` glob, in order. -/
def movieResults (dir : List String) (convertOk : Bool)
    (tagOk thumbCopyOk : String → Bool) : List VideoResult :=
  (runVideos dir convertOk).map (processMovieVideo (thumbAvail dir convertOk) tagOk thumbCopyOk)

/-- The `.THM` sidecar files the movie loop created. -/
def movieSidecars (dir : List String) (convertOk : Bool)
    (tagOk thumbCopyOk : String → Bool) : List String :=
  ((movieResults dir convertOk tagOk thumbCopyOk).filter (fun r => r.thumbCreated)).map
    (fun r => sidecarName r.name)

/-- `PSPMetadataWriter.process_movies`: thumbnail stage, then the per-video
loop, then `cleanup_for_psp`.  Returns the run trace and the final
directory listing (original files, surviving sidecars, after cleanup). -/
def movieRun (dir : List String) (convertOk : Bool)
    (tagOk thumbCopyOk unlinkFails : String → Bool) : RunTrace × List String :=
  ({ results := movieResults dir convertOk tagOk thumbCopyOk, cleanupRan := true },
   cleanup_for_psp (dirWithThumb dir convertOk ++ movieSidecars dir convertOk tagOk thumbCopyOk)
     unlinkFails)

/-- The results of the `process_tv_show` loop. -/
def tvResults (showName : String) (dir : List String) (convertOk : Bool)
    (tagOk thumbCopyOk : String → Bool) : List VideoResult :=
  (runVideos dir convertOk).map
    (processTvVideo showName (thumbAvail dir convertOk) tagOk thumbCopyOk)

/-- The `.THM` sidecar files the TV loop created. -/
def tvSidecars (showName : String) (dir : List String) (convertOk : Bool)
    (tagOk thumbCopyOk : String → Bool) : List String :=
  ((tvResults showName dir convertOk tagOk thumbCopyOk).filter (fun r => r.thumbCreated)).map
    (fun r => sidecarName r.name)

/-- `PSPMetadataWriter.process_tv_show`: the TV-show variant of `movieRun`. -/
def tvRun (showName : String) (dir : List String) (convertOk : Bool)
    (tagOk thumbCopyOk unlinkFails : String → Bool) : RunTrace × List String :=
  ({ results := tvResults showName dir convertOk tagOk thumbCopyOk, cleanupRan := true },
   cleanup_for_psp
     (dirWithThumb dir convertOk ++ tvSidecars showName dir convertOk tagOk thumbCopyOk)
     unlinkFails)

example : find_cover_image ["Cover.png", "cover.jpg", "a.mp4"] = some ("cover.jpg") := by decide

example : cleanup_for_psp ["cover.jpg", "a.mp4", "thumbnail.jpg"] (fun _ => false) = ["a.mp4"] := by
  decide

/-! ### Helper lemmas about the search primitives -/

lemma takeWhile_append_all {p : Char → Bool} :
    ∀ (ds : List Char), (∀ c ∈ ds, p c = true) → ∀ (c : Char) (r : List Char), p c = false →
      (ds ++ c :: r).takeWhile p = ds := by
  intro ds
  induction ds with
  | nil =>
      intro _ c r hc
      simp [List.takeWhile_cons, hc]
  | cons d ds ih =>
      intro hall c r hc
      have hd : p d = true := hall d (by simp)
      simp only [List.cons_append, List.takeWhile_cons, hd, if_true]
      rw [ih (fun x hx => hall x (by simp [hx])) c r hc]

lemma dropWhile_append_all {p : Char → Bool} :
    ∀ (ds : List Char), (∀ c ∈ ds, p c = true) → ∀ (c : Char) (r : List Char), p c = false →
      (ds ++ c :: r).dropWhile p = c :: r := by
  intro ds
  induction ds with
  | nil =>
      intro _ c r hc
      simp [List.dropWhile_cons, hc]
  | cons d ds ih =>
      intro hall c r hc
      have hd : p d = true := hall d (by simp)
      simp only [List.cons_append, List.dropWhile_cons, hd, if_true]
      exact ih (fun x hx => hall x (by simp [hx])) c r hc

lemma takeDigits_cons_of_digit {c : Char} (r : List Char) (h : c.isDigit = true) :
    takeDigits (c :: r) = c :: takeDigits r := by
  simp [takeDigits, List.takeWhile_cons, h]

lemma takeDigits_eq_nil {l : List Char} (h : ∀ c ∈ l, c.isDigit = false) :
    takeDigits l = [] := by
  cases l with
  | nil => rfl
  | cons c r => simp [takeDigits, List.takeWhile_cons, h c (by simp)]

lemma scanFor_eq_none {α : Type} {m : List Char → Option α} :
    ∀ l : List Char, (∀ c r, (c :: r) <:+ l → m (c :: r) = none) → scanFor m l = none := by
  intro l
  induction l with
  | nil => intro _; rfl
  | cons c rest ih =>
      intro h
      have hc : m (c :: rest) = none := h c rest List.suffix_rfl
      simp only [scanFor, hc]
      exact ih (fun c' r' hs => h c' r' (hs.trans (List.suffix_cons c rest)))

lemma scanFor_ne_none {α : Type} {m : List Char → Option α} :
    ∀ (l : List Char) (c : Char) (r : List Char) (a : α),
      (c :: r) <:+ l → m (c :: r) = some a → scanFor m l ≠ none := by
  intro l
  induction l with
  | nil =>
      intro _ _ _ hs _
      exact absurd (List.suffix_nil.mp hs) (by simp)
  | cons d rest ih =>
      intro c r a hs hm
      rcases List.suffix_cons_iff.mp hs with heq | hsuf
      · rw [heq] at hm
        simp [scanFor, hm]
      · cases hd : m (d :: rest) with
        | some b => simp [scanFor, hd]
        | none =>
            simp only [scanFor, hd]
            exact ih c r a hsuf hm

lemma scanFor_some_suffix {α : Type} {m : List Char → Option α} :
    ∀ (l : List Char) (a : α), scanFor m l = some a →
      ∃ c r, (c :: r) <:+ l ∧ m (c :: r) = some a := by
  intro l
  induction l with
  | nil => intro a h; simp [scanFor] at h
  | cons d rest ih =>
      intro a h
      cases hd : m (d :: rest) with
      | some b =>
          simp only [scanFor, hd] at h
          cases h
          exact ⟨d, rest, List.suffix_rfl, hd⟩
      | none =>
          simp only [scanFor, hd] at h
          rcases ih a h with ⟨c, r, hs, hm⟩
          exact ⟨c, r, hs.trans (List.suffix_cons d rest), hm⟩

lemma suffix_of_mem {c : Char} {l : List Char} (h : c ∈ l) : ∃ r, (c :: r) <:+ l := by
  rcases List.append_of_mem h with ⟨u, v, rfl⟩
  exact ⟨v, List.suffix_append u (c :: v)⟩

lemma stripCI_suffix : ∀ (ps l r : List Char), stripCI ps l = some r → r <:+ l := by
  intro ps
  induction ps with
  | nil =>
      intro l r h
      cases h
      exact List.suffix_rfl
  | cons p ps ih =>
      intro l r h
      cases l with
      | nil => simp [stripCI] at h
      | cons c cs =>
          simp only [stripCI] at h
          split at h
          · exact (ih cs r h).trans (List.suffix_cons c cs)
          · exact absurd h (by simp)

/-! ### Every rule needs a digit -/

lemma matchSEAt_eq_none {l : List Char} (h : ∀ c ∈ l, c.isDigit = false) :
    matchSEAt l = none := by
  cases l with
  | nil => rfl
  | cons c rest =>
      have hd : takeDigits rest = [] :=
        takeDigits_eq_nil (fun x hx => h x (by simp [hx]))
      simp [matchSEAt, hd]

lemma matchXAt_eq_none {l : List Char} (h : ∀ c ∈ l, c.isDigit = false) :
    matchXAt l = none := by
  simp [matchXAt, takeDigits_eq_nil h]

lemma matchEPAt_eq_none {l : List Char} (h : ∀ c ∈ l, c.isDigit = false) :
    matchEPAt l = none := by
  cases hst : stripCI ['e', 'p'] l with
  | none => simp [matchEPAt, hst]
  | some rest =>
      have hsub : ∀ c ∈ rest, c.isDigit = false :=
        fun c hc => h c ((stripCI_suffix _ _ _ hst).subset hc)
      simp [matchEPAt, hst, takeDigits_eq_nil hsub]

lemma matchEpisodeAt_eq_none {l : List Char} (h : ∀ c ∈ l, c.isDigit = false) :
    matchEpisodeAt l = none := by
  cases hst : stripCI ['e', 'p', 'i', 's', 'o', 'd', 'e'] l with
  | none => simp [matchEpisodeAt, hst]
  | some rest =>
      have hsub : ∀ c ∈ rest.dropWhile isWs, c.isDigit = false :=
        fun c hc => h c ((stripCI_suffix _ _ _ hst).subset ((List.dropWhile_suffix isWs).subset hc))
      simp [matchEpisodeAt, hst, takeDigits_eq_nil hsub]

lemma matchEpShortAt_eq_none {l : List Char} (h : ∀ c ∈ l, c.isDigit = false) :
    matchEpShortAt l = none := by
  cases hst : stripCI ['e', 'p'] l with
  | none => simp [matchEpShortAt, hst]
  | some rest =>
      have hsub : ∀ c ∈ rest.dropWhile isWs, c.isDigit = false :=
        fun c hc => h c ((stripCI_suffix _ _ _ hst).subset ((List.dropWhile_suffix isWs).subset hc))
      simp [matchEpShortAt, hst, takeDigits_eq_nil hsub]

lemma matchNumAt_eq_none {l : List Char} (h : ∀ c ∈ l, c.isDigit = false) :
    matchNumAt l = none := by
  simp [matchNumAt, takeDigits_eq_nil h]

lemma dashMatch_eq_none {l : List Char} (h : ∀ c ∈ l, c.isDigit = false) :
    dashMatch l = none := by
  simp [dashMatch, takeDigits_eq_nil h]

/-- A suffix of a digit-free list is digit-free, so a scan with any of the
matchers above fails on digit-free input. -/
lemma scanFor_eq_none_of_noDigit {α : Type} {m : List Char → Option α}
    (hm : ∀ l' : List Char, (∀ c ∈ l', c.isDigit = false) → m l' = none)
    {l : List Char} (h : ∀ c ∈ l, c.isDigit = false) : scanFor m l = none :=
  scanFor_eq_none l (fun c r hs => hm _ (fun x hx => h x (hs.subset hx)))

/-! ### Unfolding `extract_episode_number` rule by rule -/

lemma extract_of_searchSE {s : String} {a b : Nat} (h : searchSE s.toList = some (a, b)) :
    extract_episode_number s = some ("S" ++ pad2 a ++ "E" ++ pad2 b) := by
  have h' : searchSE s.data = some (a, b) := h
  simp [extract_episode_number, h']

lemma extract_of_searchX {s : String} {a b : Nat} (h1 : searchSE s.toList = none)
    (h2 : searchX s.toList = some (a, b)) :
    extract_episode_number s = some ("S" ++ pad2 a ++ "E" ++ pad2 b) := by
  have h1' : searchSE s.data = none := h1
  have h2' : searchX s.data = some (a, b) := h2
  simp [extract_episode_number, h1', h2']

lemma extract_of_searchEP {s : String} {n : Nat} (h1 : searchSE s.toList = none)
    (h2 : searchX s.toList = none) (h3 : searchEP s.toList = some n) :
    extract_episode_number s = some ("S01E" ++ pad2 n) := by
  have h1' : searchSE s.data = none := h1
  have h2' : searchX s.data = none := h2
  have h3' : searchEP s.data = some n := h3
  simp [extract_episode_number, h1', h2', h3']

lemma extract_of_dashMatch {s : String} {n : Nat} (h1 : searchSE s.toList = none)
    (h2 : searchX s.toList = none) (h3 : searchEP s.toList = none)
    (h4 : dashMatch s.toList = some n) :
    extract_episode_number s = some ("S01E" ++ pad2 n) := by
  have h1' : searchSE s.data = none := h1
  have h2' : searchX s.data = none := h2
  have h3' : searchEP s.data = none := h3
  have h4' : dashMatch s.data = some n := h4
  simp [extract_episode_number, h1', h2', h3', h4']

lemma extract_of_searchNumber {s : String} {n : Nat} (h1 : searchSE s.toList = none)
    (h2 : searchX s.toList = none) (h3 : searchEP s.toList = none)
    (h4 : dashMatch s.toList = none) (h5 : searchEpisode s.toList = none)
    (h6 : searchEpShort s.toList = none) (h7 : searchNumber s.toList = some n) :
    extract_episode_number s = some ("E" ++ pad2 n) := by
  have h1' : searchSE s.data = none := h1
  have h2' : searchX s.data = none := h2
  have h3' : searchEP s.data = none := h3
  have h4' : dashMatch s.data = none := h4
  have h5' : searchEpisode s.data = none := h5
  have h6' : searchEpShort s.data = none := h6
  have h7' : searchNumber s.data = some n := h7
  simp [extract_episode_number, h1', h2', h3', h4', h5', h6', h7']

lemma extract_eq_none_of_all_none {s : String} (h1 : searchSE s.toList = none)
    (h2 : searchX s.toList = none) (h3 : searchEP s.toList = none)
    (h4 : dashMatch s.toList = none) (h5 : searchEpisode s.toList = none)
    (h6 : searchEpShort s.toList = none) (h7 : searchNumber s.toList = none) :
    extract_episode_number s = none := by
  have h1' : searchSE s.data = none := h1
  have h2' : searchX s.data = none := h2
  have h3' : searchEP s.data = none := h3
  have h4' : dashMatch s.data = none := h4
  have h5' : searchEpisode s.data = none := h5
  have h6' : searchEpShort s.data = none := h6
  have h7' : searchNumber s.data = none := h7
  simp [extract_episode_number, h1', h2', h3', h4', h5', h6', h7']

lemma extract_ne_none_of_searchNumber {s : String} {n : Nat}
    (hn : searchNumber s.toList = some n) : extract_episode_number s ≠ none := by
  have hn' : searchNumber s.data = some n := hn
  unfold extract_episode_number
  cases h1 : searchSE s.data with
  | some p => cases p; simp [h1]
  | none =>
    cases h2 : searchX s.data with
    | some p => cases p; simp [h1, h2]
    | none =>
      cases h3 : searchEP s.data with
      | some n3 => simp [h1, h2, h3]
      | none =>
        cases h4 : dashMatch s.data with
        | some n4 => simp [h1, h2, h3, h4]
        | none =>
          cases h5 : searchEpisode s.data with
          | some n5 => simp [h1, h2, h3, h4, h5]
          | none =>
            cases h6 : searchEpShort s.data with
            | some p => cases p; simp [h1, h2, h3, h4, h5, h6]
            | none => simp [h1, h2, h3, h4, h5, h6, hn']

lemma isEmpty_false_of_ne_nil {l : List Char} (h : l ≠ []) : l.isEmpty = false := by
  cases l with
  | nil => exact absurd rfl h
  | cons c r => rfl

lemma dropWhile_eq_self_of_takeWhile_nil {p : Char → Bool} {l : List Char}
    (h : l.takeWhile p = []) : l.dropWhile p = l := by
  cases l with
  | nil => rfl
  | cons c cs =>
      cases hpc : p c with
      | true => simp [List.takeWhile_cons, hpc] at h
      | false => simp [List.dropWhile_cons, hpc]

lemma matchEPAt_of_epShort_zero {l : List Char} {n : Nat}
    (h : matchEpShortAt l = some (0, n)) : matchEPAt l = some n := by
  unfold matchEpShortAt at h
  cases hst : stripCI ['e', 'p'] l with
  | none => rw [hst] at h; simp at h
  | some rest =>
      rw [hst] at h
      simp only [] at h
      split at h
      · exact absurd h (by simp)
      · rename_i hemp
        have hinj := Option.some.inj h
        have hws : rest.takeWhile isWs = [] :=
          List.length_eq_zero.mp (congrArg Prod.fst hinj)
        have hdw : rest.dropWhile isWs = rest := dropWhile_eq_self_of_takeWhile_nil hws
        have hdig : digitsToNat (takeDigits rest) = n := by
          have h2 := congrArg Prod.snd hinj
          simpa [hdw] using h2
        have hne2 : takeDigits rest ≠ [] := by
          rw [hdw] at hemp
          simpa using hemp
        unfold matchEPAt
        rw [hst]
        simp [hne2, hdig]

/-- Claim C2: a filename containing a case-insensitive `S<digits>E<digits>`
substring is resolved by rule 1, the leftmost such match, producing the
zero-padded `S{season:02d}E{episode:02d}` tag; no later rule fires. -/
theorem c2_se_rule (s : String)
    (hex : ∃ u cS ds eC es rest, s.toList = u ++ cS :: (ds ++ eC :: (es ++ rest)) ∧
      (cS = 'S' ∨ cS = 's') ∧ ds ≠ [] ∧ (∀ c ∈ ds, c.isDigit = true) ∧
      (eC = 'E' ∨ eC = 'e') ∧ es ≠ [] ∧ (∀ c ∈ es, c.isDigit = true)) :
    ∃ a b, searchSE s.toList = some (a, b) ∧
      extract_episode_number s = some ("S" ++ pad2 a ++ "E" ++ pad2 b) := by
  obtain ⟨u, cS, ds, eC, es, rest, heq, hcS, hds, hdsall, heC, hes, hesall⟩ := hex
  have hSlow : lowerChar cS = 's' := by rcases hcS with rfl | rfl <;> decide
  have hElow : lowerChar eC = 'e' := by rcases heC with rfl | rfl <;> decide
  have heCd : Char.isDigit eC = false := by rcases heC with rfl | rfl <;> decide
  obtain ⟨d, es', rfl⟩ : ∃ d es', es = d :: es' := by
    cases es with
    | nil => exact absurd rfl hes
    | cons d es' => exact ⟨d, es', rfl⟩
  have hdd : Char.isDigit d = true := hesall d (by simp)
  have htake : takeDigits (ds ++ eC :: (d :: (es' ++ rest))) = ds :=
    takeWhile_append_all ds hdsall eC (d :: (es' ++ rest)) heCd
  have hdrop : dropDigits (ds ++ eC :: (d :: (es' ++ rest))) = eC :: (d :: (es' ++ rest)) :=
    dropWhile_append_all ds hdsall eC (d :: (es' ++ rest)) heCd
  have htake2 : takeDigits (d :: (es' ++ rest)) = d :: takeDigits (es' ++ rest) :=
    takeDigits_cons_of_digit (es' ++ rest) hdd
  have hmatch : matchSEAt (cS :: (ds ++ eC :: (d :: (es' ++ rest)))) =
      some (digitsToNat ds, digitsToNat (d :: takeDigits (es' ++ rest))) := by
    simp [matchSEAt, hSlow, htake, hdrop, hElow, htake2, hds]
  have hsuf : (cS :: (ds ++ eC :: (d :: (es' ++ rest)))) <:+ s.toList := by
    rw [heq]
    exact List.suffix_append u _
  have hne : scanFor matchSEAt s.toList ≠ none :=
    scanFor_ne_none s.toList cS (ds ++ eC :: (d :: (es' ++ rest))) _ hsuf hmatch
  have hne' : searchSE s.toList ≠ none := hne
  obtain ⟨⟨a, b⟩, hab⟩ := Option.ne_none_iff_exists'.mp hne'
  exact ⟨a, b, hab, extract_of_searchSE hab⟩

/-- Claim C2 witness: "S01E02 - Episode 3" resolves to "S01E02" (not "E03"),
and "Show.s1e2" resolves to "S01E02". -/
theorem c2_se_rule_w : extract_episode_number ("S01E02 - Episode 3") = some ("S01E02") ∧
    extract_episode_number ("Show.s1e2") = some ("S01E02") := by
  constructor
  · obtain ⟨a, b, hab, hex⟩ := c2_se_rule ("S01E02 - Episode 3")
      ⟨[], 'S', ['0', '1'], 'E', ['0', '2'], " - Episode 3".toList,
        by decide, Or.inl rfl, by decide, by decide, Or.inl rfl, by decide, by decide⟩
    have hab' : some (a, b) = some (1, 2) :=
      hab.symm.trans (by decide : searchSE ("S01E02 - Episode 3".toList) = some (1, 2))
    cases Option.some.inj hab'
    exact hex.trans (by decide)
  · obtain ⟨a, b, hab, hex⟩ := c2_se_rule ("Show.s1e2")
      ⟨"Show.".toList, 's', ['1'], 'e', ['2'], [],
        by decide, Or.inr rfl, by decide, by decide, Or.inr rfl, by decide, by decide⟩
    have hab' : some (a, b) = some (1, 2) :=
      hab.symm.trans (by decide : searchSE ("Show.s1e2".toList) = some (1, 2))
    cases Option.some.inj hab'
    exact hex.trans (by decide)

/-- Claim C6: `extract_episode_number` returns `none` exactly when the
filename contains no decimal digit; and when a digit exists but none of
rules 1–6 matches, the fallback returns `E{n:02d}` for `n` the first bare
number in the filename (`searchNumber` being the leftmost maximal digit
run, as `re.search(r'(\d+)')` finds it). -/
theorem c6_fallback (s : String) :
    (extract_episode_number s = none ↔ ∀ c ∈ s.toList, c.isDigit = false) ∧
    (∀ n : Nat, searchSE s.toList = none → searchX s.toList = none →
      searchEP s.toList = none → dashMatch s.toList = none →
      searchEpisode s.toList = none → searchEpShort s.toList = none →
      searchNumber s.toList = some n →
      extract_episode_number s = some ("E" ++ pad2 n)) := by
  constructor
  · constructor
    · intro hnone
      by_contra hnd
      push_neg at hnd
      obtain ⟨c, hc, hcd⟩ := hnd
      have hcd' : c.isDigit = true := by
        cases h : c.isDigit
        · exact absurd h hcd
        · rfl
      obtain ⟨r, hsuf⟩ := suffix_of_mem hc
      have hm : matchNumAt (c :: r) = some (digitsToNat (c :: takeDigits r)) := by
        simp [matchNumAt, takeDigits_cons_of_digit r hcd']
      have hne : scanFor matchNumAt s.toList ≠ none :=
        scanFor_ne_none s.toList c r _ hsuf hm
      have hne' : searchNumber s.toList ≠ none := hne
      obtain ⟨n, hn⟩ := Option.ne_none_iff_exists'.mp hne'
      exact extract_ne_none_of_searchNumber hn hnone
    · intro h
      exact extract_eq_none_of_all_none
        (scanFor_eq_none_of_noDigit (fun l' h' => matchSEAt_eq_none h') h)
        (scanFor_eq_none_of_noDigit (fun l' h' => matchXAt_eq_none h') h)
        (scanFor_eq_none_of_noDigit (fun l' h' => matchEPAt_eq_none h') h)
        (dashMatch_eq_none h)
        (scanFor_eq_none_of_noDigit (fun l' h' => matchEpisodeAt_eq_none h') h)
        (scanFor_eq_none_of_noDigit (fun l' h' => matchEpShortAt_eq_none h') h)
        (scanFor_eq_none_of_noDigit (fun l' h' => matchNumAt_eq_none h') h)
  · intro n h1 h2 h3 h4 h5 h6 h7
    exact extract_of_searchNumber h1 h2 h3 h4 h5 h6 h7

/-- Claim C6 witness: a digit-free name yields `none`; a name whose only
pattern is a bare number yields the fallback tag. -/
theorem c6_fallback_w : extract_episode_number ("randomfile") = none ∧
    extract_episode_number ("The 1080 files") = some ("E1080") := by
  constructor
  · exact (c6_fallback ("randomfile")).1.mpr (by decide)
  · exact ((c6_fallback ("The 1080 files")).2 1080 (by decide) (by decide) (by decide)
      (by decide) (by decide) (by decide) (by decide)).trans (by decide)

/-- Claim C7: a filename whose leading maximal digit run is followed by a
dash, and which matches none of rules 1–3, is resolved by rule 4 to
`S01E{n:02d}` with `n` the leading number — not by the bare-number
fallback. -/
theorem c7_leading_dash (s : String) (ds rest : List Char)
    (hshape : s.toList = ds ++ '-' :: rest) (hds : ds ≠ [])
    (hall : ∀ c ∈ ds, c.isDigit = true)
    (h1 : searchSE s.toList = none) (h2 : searchX s.toList = none)
    (h3 : searchEP s.toList = none) :
    extract_episode_number s = some ("S01E" ++ pad2 (digitsToNat ds)) := by
  have htake : takeDigits (ds ++ '-' :: rest) = ds :=
    takeWhile_append_all ds hall '-' rest (by decide)
  have hdrop : dropDigits (ds ++ '-' :: rest) = '-' :: rest :=
    dropWhile_append_all ds hall '-' rest (by decide)
  have hdash : dashMatch s.toList = some (digitsToNat ds) := by
    rw [hshape]
    simp [dashMatch, htake, hdrop, hds]
  exact extract_of_dashMatch h1 h2 h3 hdash

/-- Claim C7 witness: "05-Pilot" resolves to "S01E05", not "E05". -/
theorem c7_leading_dash_w : extract_episode_number ("05-Pilot") = some ("S01E05") := by
  have h := c7_leading_dash ("05-Pilot") ['0', '5'] ("Pilot".toList)
    (by decide) (by decide) (by decide) (by decide) (by decide) (by decide)
  exact h.trans (by decide)

/-- Claim C10: when `Ep` (any case) is immediately followed by a digit and
neither rule 1 nor rule 2 matches, rule 3 fires and yields `S01E{n:02d}`
(`n` from the leftmost `EP<digits>` match); dually, the season-less rule 6
(`Ep\s*(\d+)`) can only match past rule 3 when at least one whitespace
character separates `Ep` from the digits. -/
theorem c10_ep_rule (s : String) :
    ((∃ u e p d rest, s.toList = u ++ e :: p :: d :: rest ∧ (e = 'E' ∨ e = 'e') ∧
        (p = 'P' ∨ p = 'p') ∧ d.isDigit = true) →
      searchSE s.toList = none → searchX s.toList = none →
      ∃ n, searchEP s.toList = some n ∧
        extract_episode_number s = some ("S01E" ++ pad2 n)) ∧
    (∀ w n, searchEP s.toList = none → searchEpShort s.toList = some (w, n) →
      1 ≤ w) := by
  constructor
  · intro hex h1 h2
    obtain ⟨u, e, p, d, rest, heq, he, hp, hd⟩ := hex
    have helow : lowerChar e = 'e' := by rcases he with rfl | rfl <;> decide
    have hplow : lowerChar p = 'p' := by rcases hp with rfl | rfl <;> decide
    have hst : stripCI ['e', 'p'] (e :: p :: d :: rest) = some (d :: rest) := by
      simp [stripCI, helow, hplow]
    have hm : matchEPAt (e :: p :: d :: rest) =
        some (digitsToNat (d :: takeDigits rest)) := by
      simp [matchEPAt, hst, takeDigits_cons_of_digit rest hd]
    have hsuf : (e :: p :: d :: rest) <:+ s.toList := by
      rw [heq]
      exact List.suffix_append u _
    have hne : scanFor matchEPAt s.toList ≠ none :=
      scanFor_ne_none s.toList e (p :: d :: rest) _ hsuf hm
    have hne' : searchEP s.toList ≠ none := hne
    obtain ⟨n, hn⟩ := Option.ne_none_iff_exists'.mp hne'
    exact ⟨n, hn, extract_of_searchEP h1 h2 hn⟩
  · intro w n hEP hshort
    by_contra hw
    have hw0 : w = 0 := by omega
    subst hw0
    have hshort' : scanFor matchEpShortAt s.toList = some (0, n) := hshort
    obtain ⟨c, r, hsuf, hm⟩ := scanFor_some_suffix s.toList (0, n) hshort'
    have hm' : matchEPAt (c :: r) = some n := matchEPAt_of_epShort_zero hm
    have hne : scanFor matchEPAt s.toList ≠ none :=
      scanFor_ne_none s.toList c r n hsuf hm'
    exact hne hEP

/-- Claim C10 witness: "Show Ep3" has `Ep` directly followed by a digit and
resolves through rule 3 to "S01E03" (season assumed 1), while "Show Ep 3",
with a space, falls to rule 6 and yields the season-less "E03". -/
theorem c10_ep_rule_w : extract_episode_number ("Show Ep3") = some ("S01E03") := by
  obtain ⟨n, hn, hex⟩ := (c10_ep_rule ("Show Ep3")).1
    ⟨"Show ".toList, 'E', 'p', '3', [], by decide, Or.inl rfl, Or.inr rfl, by decide⟩
    (by decide) (by decide)
  have hn' : some n = some 3 :=
    hn.symm.trans (by decide : searchEP ("Show Ep3".toList) = some 3)
  cases Option.some.inj hn'
  exact hex.trans (by decide)

/-! ### Claims about the tagger, the cover scan and cleanup -/

/-- Claim C1: for every prior file state and transcoder outcome the tagger
either fully replaces the original file with the tagged temporary file
(returning success), or leaves the original untouched; on transcoder
failure any partial temporary file is removed and `false` is returned, so
the caller's batch continues and no partially written state is observable
at the original path — in both cases no temporary file remains. -/
theorem c1_atomic_tagging (f : FileState) (o : TranscodeOutcome) :
    ((add_metadata_to_video f o).2 = true ∧
      ∃ tagged, o = TranscodeOutcome.success tagged ∧
        (add_metadata_to_video f o).1 = { original := tagged, temp := none }) ∨
    ((add_metadata_to_video f o).2 = false ∧
      (add_metadata_to_video f o).1 = { original := f.original, temp := none } ∧
      ∃ leftover, o = TranscodeOutcome.failure leftover) := by
  cases o with
  | success tagged => exact Or.inl ⟨rfl, tagged, rfl, rfl⟩
  | failure leftover => exact Or.inr ⟨rfl, rfl, leftover, rfl⟩

lemma contains_iff {a : String} {l : List String} : l.contains a = true ↔ a ∈ l := by
  induction l with
  | nil => simp
  | cons b bs ih => simp [List.contains, List.elem_cons]

lemma find?_append_first (p : String → Bool) :
    ∀ (pre : List String) (x : String) (post : List String),
      (∀ y ∈ pre, p y = false) → p x = true →
      (pre ++ x :: post).find? p = some x := by
  intro pre
  induction pre with
  | nil =>
      intro x post _ hx
      simp [List.find?_cons, hx]
  | cons a pre ih =>
      intro x post hall hx
      have ha : p a = false := hall a (by simp)
      simp only [List.cons_append, List.find?_cons, ha]
      exact ih x post (fun y hy => hall y (by simp [hy])) hx

/-- Claim C5: `find_cover_image` returns the first existing filename of the
fixed ordered 15-candidate list and `none` when no candidate exists; in
particular a directory containing "cover.jpg" resolves to "cover.jpg"
(so one holding both "cover.jpg" and "Cover.png" picks "cover.jpg"). -/
theorem c5_cover_first (dir : List String) :
    ((∀ q ∈ cover_patterns, q ∉ dir) → find_cover_image dir = none) ∧
    (∀ q, find_cover_image dir = some q → q ∈ cover_patterns ∧ q ∈ dir) ∧
    (∀ pre q post, cover_patterns = pre ++ q :: post → (∀ y ∈ pre, y ∉ dir) →
      q ∈ dir → find_cover_image dir = some q) ∧
    ("cover.jpg" ∈ dir → find_cover_image dir = some ("cover.jpg")) := by
  have h3 : ∀ pre q post, cover_patterns = pre ++ q :: post → (∀ y ∈ pre, y ∉ dir) →
      q ∈ dir → find_cover_image dir = some q := by
    intro pre q post hsplit hpre hq
    unfold find_cover_image
    rw [hsplit]
    refine find?_append_first _ pre q post (fun y hy => ?_) (contains_iff.mpr hq)
    cases hc : dir.contains y with
    | false => rfl
    | true => exact absurd (contains_iff.mp hc) (hpre y hy)
  refine ⟨?_, ?_, h3, ?_⟩
  · intro h
    unfold find_cover_image
    rw [List.find?_eq_none]
    intro q hq
    cases hc : dir.contains q with
    | false => simp
    | true => exact absurd (contains_iff.mp hc) (h q hq)
  · intro q hq
    refine ⟨List.mem_of_find?_eq_some hq, ?_⟩
    exact contains_iff.mp (List.find?_some hq)
  · intro h
    exact h3 []  "cover.jpg"
      ["cover.jpeg", "cover.png", "cover.bmp", "cover.gif",
       "Cover.jpg", "Cover.jpeg", "Cover.png", "Cover.bmp", "Cover.gif",
       "COVER.jpg", "COVER.jpeg", "COVER.png", "COVER.bmp", "COVER.gif"]
      rfl (by simp) h

/-- Claim C5 witness: with both "Cover.png" and "cover.jpg" present the scan
resolves to "cover.jpg". -/
theorem c5_cover_first_w :
    find_cover_image ["Cover.png", "cover.jpg"] = some ("cover.jpg") :=
  (c5_cover_first ["Cover.png", "cover.jpg"]).2.2.2 (by decide)

lemma mem_files_to_remove_not_mp4 :
    ∀ f ∈ files_to_remove, strEndsWith f (".mp4") = false := by
  decide

/-- Claim C8: after cleanup none of the 16 fixed cover/thumbnail filenames
remain (absent individual delete errors), every file not on the fixed list
— in particular every `*.mp4` video — survives under its original name,
and cleanup introduces nothing new: the final listing is a sublist of the
original. -/
theorem c8_cleanup (dir : List String) (unlinkFails : String → Bool) :
    (∀ f ∈ files_to_remove, unlinkFails f = false →
      f ∉ cleanup_for_psp dir unlinkFails) ∧
    (∀ f ∈ dir, f ∉ files_to_remove → f ∈ cleanup_for_psp dir unlinkFails) ∧
    (∀ f ∈ dir, strEndsWith f (".mp4") = true → f ∈ cleanup_for_psp dir unlinkFails) ∧
    (∀ f ∈ cleanup_for_psp dir unlinkFails, f ∈ dir) := by
  have h2 : ∀ f ∈ dir, f ∉ files_to_remove → f ∈ cleanup_for_psp dir unlinkFails := by
    intro f hf hnot
    have hc : files_to_remove.contains f = false := by
      cases hc : files_to_remove.contains f with
      | false => rfl
      | true => exact absurd (contains_iff.mp hc) hnot
    refine List.mem_filter.mpr ⟨hf, ?_⟩
    simp only [hc, Bool.false_and, Bool.not_false]
  refine ⟨?_, h2, ?_, ?_⟩
  · intro f hf hu hmem
    have h := (List.mem_filter.mp hmem).2
    rw [contains_iff.mpr hf, hu] at h
    simp at h
  · intro f hf hmp4
    refine h2 f hf (fun hmem => ?_)
    rw [mem_files_to_remove_not_mp4 f hmem] at hmp4
    exact absurd hmp4 (by simp)
  · intro f hf
    exact (List.mem_filter.mp hf).1

/-- Claim C8 witness: cleanup of a directory holding one cover and one video
removes the cover and keeps the video. -/
theorem c8_cleanup_w :
    "cover.jpg" ∉ cleanup_for_psp ["cover.jpg", "a.mp4"] (fun _ => false) ∧
    "a.mp4" ∈ cleanup_for_psp ["cover.jpg", "a.mp4"] (fun _ => false) :=
  ⟨(c8_cleanup ["cover.jpg", "a.mp4"] (fun _ => false)).1 ("cover.jpg") (by decide) rfl,
   (c8_cleanup ["cover.jpg", "a.mp4"] (fun _ => false)).2.2.1 ("a.mp4") (by decide) (by decide)⟩

/-! ### Claims about the batch pipelines -/

/-- Claim C4: the movie loop computes exactly
`{title: stem, album: "Movies"}` with no episode parsing, and the TV loop
computes exactly `{title: stem, album: show, show: show}` with an
`episode_id` entry present if and only if `extract_episode_number` on the
filename stem returns a tag (and then equal to that tag). -/
theorem c4_metadata_shape (showName name : String) (ta : Bool)
    (tagOk thumbCopyOk : String → Bool) :
    (processMovieVideo ta tagOk thumbCopyOk name).metadata
        = [("title", stem name), ("album", "Movies")] ∧
    (extract_episode_number (stem name) = none →
      (processTvVideo showName ta tagOk thumbCopyOk name).metadata
        = [("title", stem name), ("album", showName), ("show", showName)]) ∧
    (∀ tag, extract_episode_number (stem name) = some tag →
      (processTvVideo showName ta tagOk thumbCopyOk name).metadata
        = [("title", stem name), ("album", showName), ("show", showName),
           ("episode_id", tag)]) ∧
    (∀ tag,
      ("episode_id", tag) ∈ (processTvVideo showName ta tagOk thumbCopyOk name).metadata →
      extract_episode_number (stem name) = some tag) := by
  refine ⟨rfl, ?_, ?_, ?_⟩
  · intro h
    simp [processTvVideo, h]
  · intro tag h
    simp [processTvVideo, h]
  · intro tag h
    unfold processTvVideo at h
    cases hx : extract_episode_number (stem name) with
    | none =>
        rw [hx] at h
        simp at h
    | some t =>
        rw [hx] at h
        simp at h
        rw [h]

/-- Claim C4 witness: a TV video named "Show.S01E02.mp4" gets the full
four-entry metadata mapping with `episode_id = "S01E02"`. -/
theorem c4_metadata_shape_w :
    (processTvVideo ("MyShow") true (fun _ => true) (fun _ => true) ("Show.S01E02.mp4")).metadata
      = [("title", "Show.S01E02"), ("album", "MyShow"), ("show", "MyShow"),
         ("episode_id", "S01E02")] := by
  have h := (c4_metadata_shape ("MyShow") ("Show.S01E02.mp4") true (fun _ => true)
    (fun _ => true)).2.2.1 ("S01E02") (by decide)
  exact h.trans (by decide)

/-- Claim C3: in both batch variants per-video failures are isolated: when
tagging fails for one video `v`, the trace still holds one result per video
of the glob, every other video is still processed (tagged when its own
transcode succeeds, with a thumbnail sidecar exactly when a thumbnail is
available), and the run still reaches the cleanup stage. -/
theorem c3_isolation (dir : List String) (convertOk : Bool)
    (tagOk thumbCopyOk unlinkFails : String → Bool) (showName v : String)
    (hvmem : v ∈ runVideos dir convertOk) (hv : tagOk v = false) :
    ((movieRun dir convertOk tagOk thumbCopyOk unlinkFails).1.results.length
        = (runVideos dir convertOk).length ∧
      (∀ n ∈ runVideos dir convertOk, n ≠ v →
        ∃ r ∈ (movieRun dir convertOk tagOk thumbCopyOk unlinkFails).1.results,
          r.name = n ∧ r.tagged = tagOk n ∧
          (tagOk n = true → thumbCopyOk n = true →
            r.tagged = true ∧ r.thumbCreated = thumbAvail dir convertOk)) ∧
      (movieRun dir convertOk tagOk thumbCopyOk unlinkFails).1.cleanupRan = true) ∧
    ((tvRun showName dir convertOk tagOk thumbCopyOk unlinkFails).1.results.length
        = (runVideos dir convertOk).length ∧
      (∀ n ∈ runVideos dir convertOk, n ≠ v →
        ∃ r ∈ (tvRun showName dir convertOk tagOk thumbCopyOk unlinkFails).1.results,
          r.name = n ∧ r.tagged = tagOk n ∧
          (tagOk n = true → thumbCopyOk n = true →
            r.tagged = true ∧ r.thumbCreated = thumbAvail dir convertOk)) ∧
      (tvRun showName dir convertOk tagOk thumbCopyOk unlinkFails).1.cleanupRan = true) := by
  constructor
  · refine ⟨by simp [movieRun, movieResults], ?_, rfl⟩
    intro n hn _
    refine ⟨processMovieVideo (thumbAvail dir convertOk) tagOk thumbCopyOk n,
      List.mem_map_of_mem _ hn, rfl, rfl, ?_⟩
    intro h1 h2
    exact ⟨by simp [processMovieVideo, h1],
      by simp [processMovieVideo, h1, h2]⟩
  · refine ⟨by simp [tvRun, tvResults], ?_, rfl⟩
    intro n hn _
    refine ⟨processTvVideo showName (thumbAvail dir convertOk) tagOk thumbCopyOk n,
      List.mem_map_of_mem _ hn, rfl, rfl, ?_⟩
    intro h1 h2
    exact ⟨by simp [processTvVideo, h1],
      by simp [processTvVideo, h1, h2]⟩

/-- Claim C3 witness: with tagging failing for "a.mp4" only, the movie run
still records a result for every video and reaches cleanup, and "b.mp4" is
tagged with its sidecar. -/
theorem c3_isolation_w :
    (movieRun ["a.mp4", "b.mp4"] true (fun n => n != "a.mp4") (fun _ => true)
        (fun _ => false)).1.results.length
      = (runVideos ["a.mp4", "b.mp4"] true).length ∧
    (movieRun ["a.mp4", "b.mp4"] true (fun n => n != "a.mp4") (fun _ => true)
        (fun _ => false)).1.cleanupRan = true := by
  have h := c3_isolation ["a.mp4", "b.mp4"] true (fun n => n != "a.mp4") (fun _ => true)
    (fun _ => false) ("AnyShow") ("a.mp4") (by decide) (by decide)
  exact ⟨h.1.1, h.1.2.2⟩

/-! ### The `*.mp4` listing is invariant under a run -/

lemma sidecar_not_mp4 (t : String) : strEndsWith (sidecarName t) (".mp4") = false := by
  unfold sidecarName strEndsWith
  have h : (stem t ++ ".THM").toList = (stem t).toList ++ ['.', 'T', 'H', 'M'] := rfl
  have h4 : ".mp4".toList.reverse = ['4', 'p', 'm', '.'] := rfl
  rw [h, h4, List.reverse_append]
  simp [List.isPrefixOf]

lemma mp4Files_append (a b : List String) :
    mp4Files (a ++ b) = mp4Files a ++ mp4Files b := by
  unfold mp4Files
  exact List.filter_append _ _

lemma mp4Files_addFile_thumbnail (d : List String) :
    mp4Files (addFile d ("thumbnail.jpg")) = mp4Files d := by
  unfold addFile
  split
  · rfl
  · rw [mp4Files_append]
    have : mp4Files ["thumbnail.jpg"] = [] := by decide
    rw [this, List.append_nil]

lemma mp4Files_dirWithThumb (d : List String) (c : Bool) :
    mp4Files (dirWithThumb d c) = mp4Files d := by
  unfold dirWithThumb
  split
  · exact mp4Files_addFile_thumbnail d
  · rfl

lemma mp4Files_cleanup (d : List String) (u : String → Bool) :
    mp4Files (cleanup_for_psp d u) = mp4Files d := by
  unfold mp4Files cleanup_for_psp
  rw [List.filter_filter]
  refine List.filter_congr ?_
  intro a _
  cases hq : strEndsWith a (".mp4") with
  | false => simp [hq]
  | true =>
      have hnot : files_to_remove.contains a = false := by
        cases hc : files_to_remove.contains a with
        | false => rfl
        | true =>
            have hm := mem_files_to_remove_not_mp4 a (contains_iff.mp hc)
            rw [hm] at hq
            simp at hq
      simp only [hq, hnot, Bool.true_and, Bool.false_and, Bool.not_false]

lemma mp4Files_sidecars (xs : List VideoResult) :
    mp4Files (xs.map (fun r => sidecarName r.name)) = [] := by
  unfold mp4Files
  rw [List.filter_eq_nil_iff]
  intro a ha
  obtain ⟨r, _, rfl⟩ := List.mem_map.mp ha
  simp [sidecar_not_mp4]

lemma mp4Files_movieRun_snd (d : List String) (c : Bool) (t tc u : String → Bool) :
    mp4Files ((movieRun d c t tc u).2) = mp4Files d := by
  show mp4Files (cleanup_for_psp (dirWithThumb d c ++ movieSidecars d c t tc) u) = mp4Files d
  rw [mp4Files_cleanup, mp4Files_append]
  unfold movieSidecars
  rw [mp4Files_sidecars, List.append_nil, mp4Files_dirWithThumb]

/-- Claim C9: the movie pipeline's metadata mapping is a deterministic
function of each video's filename (title from the stem, album "Movies"),
and a run preserves the `*.mp4` listing, so running the movie pipeline a
second time on the resulting directory — in particular an already-tagged,
cover-free one — recomputes exactly the same metadata for every video. -/
theorem c9_idempotent (dir : List String) (k1 k2 : Bool)
    (t1 tc1 u1 t2 tc2 u2 : String → Bool) :
    ((movieRun ((movieRun dir k1 t1 tc1 u1).2) k2 t2 tc2 u2).1.results.map
        VideoResult.metadata)
      = ((movieRun dir k1 t1 tc1 u1).1.results.map VideoResult.metadata) := by
  have key : ∀ (d : List String) (c : Bool) (t tc : String → Bool),
      (movieResults d c t tc).map VideoResult.metadata
        = (runVideos d c).map (fun n => [("title", stem n), ("album", "Movies")]) := by
    intro d c t tc
    unfold movieResults
    rw [List.map_map]
    rfl
  show (movieResults ((movieRun dir k1 t1 tc1 u1).2) k2 t2 tc2).map VideoResult.metadata
      = (movieResults dir k1 t1 tc1).map VideoResult.metadata
  rw [key, key]
  unfold runVideos
  rw [mp4Files_dirWithThumb, mp4Files_dirWithThumb, mp4Files_movieRun_snd]
